import Mathlib

/-!
Verification of the cactus repository's STT core, its platform binding
layers, and the completion pipeline of `cactus_context`.

The C++/Objective-C/Dart/TypeScript sources are shallowly embedded:

* `cactus::STT` (cactus_stt.cpp) becomes a state record `STT` plus pure
  transition functions; the whisper.cpp library surface it calls into is
  modelled by an environment record `WhisperEnv` of uninterpreted functions.
  Native pointers are modelled as `Nat` handles, null pointers as `none`.
  Audio samples are opaque to every function modelled here (they are only
  tested for emptiness and forwarded), so the sample type is a parameter.
* The iOS React-Native module (Cactus.mm) becomes `ModState` with one
  transition per exported method, and the `RN_STT_*` bridge becomes
  `SttBridgeState` with an explicit set of live native contexts.
* The Dart `CactusSTTService` and the React-Native `VoiceToText` class
  become records with transition functions that also report the list of
  native (FFI) calls they perform.

Fallible external calls are modelled by environment functions returning
`Option` or a return code, exactly where the source checks one.
-/

namespace CactusProof

/-- Model of the whisper.cpp surface used by `cactus::STT` (cactus_stt.cpp).
Whisper contexts are `Nat` handles; a null pointer is `none`.
`fullRet` is the return code of `whisper_full` for a context, the configured
language (the only field of `whisper_full_params` the wrapper sets), and the
samples; `nSegments` is `whisper_full_n_segments` (a C `int`); `segmentText`
is the nullable string returned by `whisper_full_get_segment_text`. -/
structure WhisperEnv (α : Type) where
  initFromFile : String → Bool → Option Nat
  fullRet : Nat → String → List α → Int
  nSegments : Nat → Int
  segmentText : Nat → Nat → Option String

/-- The member state of class `cactus::STT`: the held `whisper_context*`
and the configured language. -/
structure STT where
  ctx_ : Option Nat
  language_ : String
deriving DecidableEq

/-- `STT::STT()`: fresh instance, null context, language "en". -/
def STT.new : STT := { ctx_ := none, language_ := "en" }

/-- `STT::isInitialized()`. -/
def STT.isInitialized (s : STT) : Bool := s.ctx_.isSome

/-- `STT::initialize(model_path, language, use_gpu)`: fails early if a context
is already held; otherwise stores the language, then calls
`whisper_init_from_file_with_params` and succeeds iff the result is non-null. -/
def STT.initWhisper (env : WhisperEnv α) (s : STT)
    (model_path language : String) (use_gpu : Bool) : Bool × STT :=
  if s.ctx_.isSome then (false, s)
  else
    let s1 : STT := { s with language_ := language }
    match env.initFromFile model_path use_gpu with
    | none => (false, s1)
    | some c => (true, { s1 with ctx_ := some c })

/-- A call into whisper.cpp recorded by the model (used to state that a
branch performs no native work). -/
inductive WhisperCall (α : Type) where
  | full (ctx : Nat) (language : String) (samples : List α)
deriving DecidableEq

/-- `STT::processAudio(samples)`: rejects when uninitialized, rejects an empty
sample vector, otherwise calls `whisper_full` and succeeds iff it returns 0.
The third component records the whisper.cpp calls made. -/
def STT.processAudio (env : WhisperEnv α) (s : STT) (samples : List α) :
    Bool × STT × List (WhisperCall α) :=
  match s.ctx_ with
  | none => (false, s, [])
  | some c =>
    if samples.isEmpty then (false, s, [])
    else if env.fullRet c s.language_ samples ≠ 0 then
      (false, s, [WhisperCall.full c s.language_ samples])
    else
      (true, s, [WhisperCall.full c s.language_ samples])

/-- `STT::getTranscription()`: empty string when uninitialized, otherwise the
fold that appends each non-null segment text in index order. -/
def STT.getTranscription (env : WhisperEnv α) (s : STT) : String :=
  match s.ctx_ with
  | none => ""
  | some c =>
    (List.range (env.nSegments c).toNat).foldl
      (fun acc i =>
        match env.segmentText c i with
        | none => acc
        | some t => acc ++ t) ""

/-- `STT::cleanup()`: frees and nulls the held context. -/
def STT.cleanup (s : STT) : STT := { s with ctx_ := none }

/-- The public operations of `cactus::STT` that can change its state. -/
inductive STTOp (α : Type) where
  | init (model_path language : String) (use_gpu : Bool)
  | process (samples : List α)
  | cleanup
deriving DecidableEq

/-- One `cactus::STT` method call, as a state transition. -/
def STT.step (env : WhisperEnv α) (s : STT) : STTOp α → STT
  | STTOp.init mp lang gpu => (STT.initWhisper env s mp lang gpu).2
  | STTOp.process samples => (STT.processAudio env s samples).2.1
  | STTOp.cleanup => STT.cleanup s

/-- A sequence of `cactus::STT` method calls starting from a given state. -/
def STT.run (env : WhisperEnv α) (s : STT) (ops : List (STTOp α)) : STT :=
  ops.foldl (STT.step env) s
/-- Concrete whisper environment used by the witnesses. -/
def envW : WhisperEnv Nat where
  initFromFile := fun p _ => if p = "bad" then none else some 7
  fullRet := fun _ _ samples => if samples.length = 1 then 1 else 0
  nSegments := fun _ => 3
  segmentText := fun _ i => if i = 0 then some "a" else if i = 2 then some "b" else none


/-- The aspects of a `CactusContext` object the iOS module branches on. -/
structure CtxObj where
  isModelLoaded : Bool
  isPredicting : Bool
deriving DecidableEq

/-- Result of an exported React-Native method: the promise is resolved, or
rejected with an error code and message. -/
inductive Outcome where
  | resolved
  | rejected (code msg : String)
deriving DecidableEq

/-- Global state of the iOS React-Native Cactus module (Cactus.mm): the
possibly-nil `NSMutableDictionary` of llama contexts keyed by contextId (a
bridged double, modelled as a rational), and `llamaContextLimit` (also a
double, initially -1). -/
structure ModState where
  llamaContexts : Option (List (ℚ × CtxObj))
  llamaContextLimit : ℚ
deriving DecidableEq

/-- Module state at load: nil dictionary, limit -1. -/
def ModState.init0 : ModState := { llamaContexts := none, llamaContextLimit := -1 }

/-- Association-list lookup used to model `NSMutableDictionary` keyed access. -/
def alookup : List (ℚ × CtxObj) → ℚ → Option CtxObj
  | [], _ => none
  | (k, v) :: rest, cid => if k = cid then some v else alookup rest cid

/-- `llamaContexts[contextIdNumber]`; messaging a nil dictionary yields nil. -/
def lookupCtx (s : ModState) (cid : ℚ) : Option CtxObj :=
  match s.llamaContexts with
  | none => none
  | some m => alookup m cid

/-- The entries of the dictionary (empty when the dictionary is nil). -/
def dictOf (s : ModState) : List (ℚ × CtxObj) := s.llamaContexts.getD []

/-- `[llamaContexts count]`. -/
def ctxCount (s : ModState) : Nat := (dictOf s).length

/-- `initContext`: rejects if the id is taken, allocates the dictionary if
nil, rejects if the limit check `llamaContextLimit > -1 && count >= limit`
fires, rejects if the created context reports the model not loaded, and
otherwise registers the created context under the id. `created` stands for
the object produced by `[CactusContext initWithParams:...]`. The source
allocates the empty dictionary right after the exists-check; here that
allocation is folded into each later branch (the entry count it reads is
unchanged by allocating an empty dictionary). -/
def initContext (s : ModState) (cid : ℚ) (created : CtxObj) : Outcome × ModState :=
  if (lookupCtx s cid).isSome then
    (Outcome.rejected "llama_error" "Context already exists", s)
  else
    if s.llamaContextLimit > -1 ∧ (ctxCount s : ℚ) ≥ s.llamaContextLimit then
      (Outcome.rejected "llama_error" "Context limit reached",
        { s with llamaContexts := some (dictOf s) })
    else if created.isModelLoaded = false then
      (Outcome.rejected "llama_cpp_error" "Failed to load the model",
        { s with llamaContexts := some (dictOf s) })
    else
      (Outcome.resolved,
        { s with llamaContexts := some (dictOf s ++ [(cid, created)]) })

/-- `setContextLimit`: stores the limit and resolves. -/
def setContextLimit (s : ModState) (limit : ℚ) : Outcome × ModState :=
  (Outcome.resolved, { s with llamaContextLimit := limit })

/-- `releaseContext`: rejects when the id is absent, otherwise removes the
entry for the id. -/
def releaseContext (s : ModState) (cid : ℚ) : Outcome × ModState :=
  match lookupCtx s cid with
  | none => (Outcome.rejected "llama_error" "Context not found", s)
  | some _ =>
      (Outcome.resolved,
        { s with
            llamaContexts :=
              some ((dictOf s).filter (fun e => decide (e.1 ≠ cid))) })

/-- `invalidate` (reached from `releaseAllContexts`): empties and nils the
dictionary. -/
def invalidate (s : ModState) : ModState := { s with llamaContexts := none }

/-- Work forwarded to the underlying `cactus_context`, recorded so a theorem
can state that a rejection performs none of it. -/
inductive WorkItem where
  | loadSessionWork (cid : ℚ) (filePath : String)
  | saveSessionWork (cid : ℚ) (filePath : String) (size : Int)
  | completionWork (cid : ℚ)
deriving DecidableEq

/-- `loadSession`: not-found and busy guards, then the session load runs on
the serial queue. -/
def loadSession (s : ModState) (cid : ℚ) (filePath : String) :
    Outcome × List WorkItem :=
  match lookupCtx s cid with
  | none => (Outcome.rejected "llama_error" "Context not found", [])
  | some c =>
      if c.isPredicting then (Outcome.rejected "llama_error" "Context is busy", [])
      else (Outcome.resolved, [WorkItem.loadSessionWork cid filePath])

/-- `saveSession`: same guards as `loadSession`. -/
def saveSession (s : ModState) (cid : ℚ) (filePath : String) (size : Int) :
    Outcome × List WorkItem :=
  match lookupCtx s cid with
  | none => (Outcome.rejected "llama_error" "Context not found", [])
  | some c =>
      if c.isPredicting then (Outcome.rejected "llama_error" "Context is busy", [])
      else (Outcome.resolved, [WorkItem.saveSessionWork cid filePath size])

/-- `completion`: same guards, then the completion runs on the serial queue. -/
def completion (s : ModState) (cid : ℚ) : Outcome × List WorkItem :=
  match lookupCtx s cid with
  | none => (Outcome.rejected "llama_error" "Context not found", [])
  | some c =>
      if c.isPredicting then (Outcome.rejected "llama_error" "Context is busy", [])
      else (Outcome.resolved, [WorkItem.completionWork cid])

/-- Concrete module state for the witnesses: context 2 is registered and
predicting, context 1 is not registered. -/
def sBusy : ModState :=
  { llamaContexts := some [(2, { isModelLoaded := true, isPredicting := true })],
    llamaContextLimit := -1 }

/-- Module state after `setContextLimit(-0.5)` on a fresh module. -/
def sNegLimit : ModState := (setContextLimit ModState.init0 (-1 / 2)).2

/-- The exported methods of the iOS module that change the context registry. -/
inductive ModOp where
  | initC (cid : ℚ) (created : CtxObj)
  | releaseC (cid : ℚ)
  | setLimit (limit : ℚ)
  | releaseAll
deriving DecidableEq

/-- One exported method call, as a transition of the module state. -/
def modStep (s : ModState) : ModOp → ModState
  | ModOp.initC cid created => (initContext s cid created).2
  | ModOp.releaseC cid => (releaseContext s cid).2
  | ModOp.setLimit l => (setContextLimit s l).2
  | ModOp.releaseAll => invalidate s

/-- A sequence of exported method calls from the freshly loaded module. -/
def modRun (ops : List ModOp) : ModState := ops.foldl modStep ModState.init0

/-- The registered context ids, in registration order. -/
def keysOf (s : ModState) : List ℚ := (dictOf s).map Prod.fst

/-- State of the iOS React-Native STT bridge (the C block of Cactus.mm):
`g` is the global `g_stt_context_ios`, `live` the list of native STT
contexts allocated by `cactus_stt_init` and not yet freed, and `nextPtr`
a supply of fresh native addresses. -/
structure SttBridgeState where
  nextPtr : Nat
  live : List Nat
  g : Option Nat
deriving DecidableEq

/-- Bridge state at module load: no live context, null global. -/
def SttBridgeState.init0 : SttBridgeState := { nextPtr := 1, live := [], g := none }

/-- `cactus_stt_free(p)`: deallocates the native context `p`. -/
def cactusSttFree (s : SttBridgeState) (p : Nat) : SttBridgeState :=
  { s with live := s.live.erase p }

/-- `cactus_stt_init`: allocates a fresh native context when the underlying
STT initialization succeeds (`ok`), otherwise returns null. -/
def cactusSttInit (s : SttBridgeState) (ok : Bool) : Option Nat × SttBridgeState :=
  if ok then
    (some s.nextPtr,
      { s with nextPtr := s.nextPtr + 1, live := s.live ++ [s.nextPtr] })
  else (none, s)

/-- `RN_STT_init`: frees the previously held global context if any, then
allocates a new one and stores it in the global. -/
def RN_STT_init (s : SttBridgeState) (ok : Bool) : Option Nat × SttBridgeState :=
  let s1 := match s.g with
    | some p => { cactusSttFree s p with g := none }
    | none => s
  let r := cactusSttInit s1 ok
  (r.1, { r.2 with g := r.1 })

/-- `RN_STT_free(p)`: frees and nulls the global context only when `p` is
non-null and equal to it. -/
def RN_STT_free (s : SttBridgeState) (p : Option Nat) : SttBridgeState :=
  match p with
  | none => s
  | some q => if s.g = some q then { cactusSttFree s q with g := none } else s

/-- The two bridge entry points, as operations. -/
inductive BridgeOp where
  | init (ok : Bool)
  | free (p : Option Nat)
deriving DecidableEq

/-- One bridge call, as a transition. -/
def bridgeStep (s : SttBridgeState) : BridgeOp → SttBridgeState
  | BridgeOp.init ok => (RN_STT_init s ok).2
  | BridgeOp.free p => RN_STT_free s p

/-- A sequence of bridge calls from the freshly loaded module. -/
def bridgeRun (ops : List BridgeOp) : SttBridgeState :=
  ops.foldl bridgeStep SttBridgeState.init0

/-- Invariant of the STT bridge: the live native contexts are exactly the
content of the global handle, and the global is an already-allocated
address. -/
def BridgeInv (s : SttBridgeState) : Prop :=
  s.live = s.g.toList ∧ ∀ p, s.g = some p → p < s.nextPtr

/-- Model of the C FFI surface used by the Dart `CactusSTTService`
(cactus_stt_service.dart): `marshal` is the per-sample store into the
native float buffer, and `processAudio` is `cactus_stt_process_audio`
applied to a context, the marshalled buffer, and the sample count. -/
structure DartFfiEnv (α β : Type) where
  marshal : α → β
  processAudio : Nat → List β → Nat → Bool

/-- The state of the Dart `CactusSTTService`: the native STT context
pointer (`none` when not initialized, so `isInitialized` is `isSome`). -/
structure CactusSTTService where
  sttContext : Option Nat
deriving DecidableEq

/-- An FFI call recorded by the Dart model. -/
inductive FfiCall (β : Type) where
  | processAudio (ctx : Nat) (samples : List β) (count : Nat)
deriving DecidableEq

/-- `CactusSTTService.processAudioChunk`: returns false when the service is
uninitialized or the sample list is empty, otherwise marshals the samples
into a native buffer and returns exactly what `cactus_stt_process_audio`
returns for the context, the buffer, and the count. -/
def CactusSTTService.processAudioChunk (env : DartFfiEnv α β)
    (s : CactusSTTService) (audioSamples : List α) :
    Bool × List (FfiCall β) :=
  match s.sttContext with
  | none => (false, [])
  | some c =>
    if audioSamples.isEmpty then (false, [])
    else
      (env.processAudio c (audioSamples.map env.marshal) audioSamples.length,
       [FfiCall.processAudio c (audioSamples.map env.marshal)
          audioSamples.length])

/-- Environment for the React-Native `VoiceToText` class: results of the
native audio-module calls it forwards to (the successful platform branch). -/
structure VttEnv where
  startRecordingResult : String
  processAudioFileResult : String → String

/-- The instance state of `VoiceToText` (VoiceToText.ts): stored model path,
recording flag and last transcription (`none` models JS null). -/
structure VoiceToText where
  modelPath : Option String
  isRecording : Bool
  currentTranscription : Option String
deriving DecidableEq

/-- A fresh `VoiceToText` instance. -/
def VoiceToText.new : VoiceToText :=
  { modelPath := none, isRecording := false, currentTranscription := none }

/-- JS truthiness of `this.modelPath`: null and the empty string are falsy. -/
def pathTruthy : Option String → Bool
  | none => false
  | some s => !s.isEmpty

/-- A call into the native audio/STT module recorded by the model. -/
inductive VttNative where
  | initSTTCall (modelPath : String)
  | startRecordingCall
  | processAudioFileCall (path : String)
  | releaseSTTCall
  | setUserVocabularyCall (vocab : String)
deriving DecidableEq

/-- Result of an async `VoiceToText` method: the promise resolves with a
value or rejects with a thrown error message. -/
inductive VttResult (ρ : Type) where
  | ok (r : ρ)
  | thrown (msg : String)
deriving DecidableEq

/-- `VoiceToText.initSTT`: stores the model path, then forwards to the
native module. -/
def VoiceToText.initSTT (s : VoiceToText) (modelPath : String) :
    VoiceToText × List VttNative :=
  ({ s with modelPath := some modelPath }, [VttNative.initSTTCall modelPath])

/-- `VoiceToText.start`: the already-recording fast path comes before the
model-path guard; otherwise an untruthy model path throws; otherwise the
native recording starts (platform dispatch elided: both platform branches
are identical in shape). -/
def VoiceToText.start (env : VttEnv) (s : VoiceToText) :
    VttResult String × VoiceToText × List VttNative :=
  if s.isRecording then (VttResult.ok "Already recording", s, [])
  else if pathTruthy s.modelPath = false then
    (VttResult.thrown "STT model not initialized. Call initSTT(modelPath) first.",
     s, [])
  else
    (VttResult.ok env.startRecordingResult,
     { s with isRecording := true }, [VttNative.startRecordingCall])

/-- `VoiceToText.processAudio`: an untruthy model path throws; otherwise the
file is transcribed and the transcription stored. -/
def VoiceToText.processAudio (env : VttEnv) (s : VoiceToText)
    (audioPath : String) : VttResult String × VoiceToText × List VttNative :=
  if pathTruthy s.modelPath = false then
    (VttResult.thrown "STT model not initialized. Call initSTT(modelPath) first.",
     s, [])
  else
    (VttResult.ok (env.processAudioFileResult audioPath),
     { s with
         currentTranscription := some (env.processAudioFileResult audioPath) },
     [VttNative.processAudioFileCall audioPath])

/-- `VoiceToText.getTranscription`. -/
def VoiceToText.getTranscription (s : VoiceToText) : Option String :=
  s.currentTranscription

/-- `VoiceToText.setUserVocabulary` (successful platform branch). -/
def VoiceToText.setUserVocabulary (s : VoiceToText) (vocab : String) :
    VttResult Unit × VoiceToText × List VttNative :=
  if pathTruthy s.modelPath = false then
    (VttResult.thrown "STT model not initialized. Call initSTT(modelPath) first.",
     s, [])
  else
    (VttResult.ok (), s, [VttNative.setUserVocabularyCall vocab])

/-- `VoiceToText.releaseSTT`: only a truthy model path triggers the native
release and the clearing of the stored path and transcription. -/
def VoiceToText.releaseSTT (s : VoiceToText) : VoiceToText × List VttNative :=
  if pathTruthy s.modelPath then
    ({ s with modelPath := none, currentTranscription := none },
     [VttNative.releaseSTTCall])
  else (s, [])

/-- Concrete native environment used by the `VoiceToText` theorems. -/
def envV : VttEnv :=
  { startRecordingResult := "started", processAudioFileResult := fun _ => "text" }

/-- init, start, release: the recording flag is still set although the model
has been released. -/
def vttRecReleased : VoiceToText :=
  (VoiceToText.releaseSTT
    ((VoiceToText.start envV
      ((VoiceToText.initSTT VoiceToText.new "m").1)).2.1)).1

/-- init, processAudio, then initSTT(""): an empty (falsy) model path with a
stored transcription. -/
def vttEmptyPath : VoiceToText :=
  (VoiceToText.initSTT
    ((VoiceToText.processAudio envV
      ((VoiceToText.initSTT VoiceToText.new "m").1) "a.wav").2.1) "").1

/-- Modelled from the spec: the implementation of `cactus_context`
(cactus.cpp) is not under src/ — only its tests and callers are — so the
completion pipeline is modelled from the spec sentence "tokenize →
loop{ sample one token via library call, check stop conditions, append } →
detokenize". The llama.cpp primitives it sequences are an environment of
uninterpreted functions over an opaque token type. -/
structure CompletionEnv (τ : Type) where
  tokenize : String → List τ
  sample : List τ → τ
  isStop : List τ → τ → Bool
  detokenize : List τ → String

/-- The loop state: the token buffer and the `has_next_token` flag. -/
structure CompState (τ : Type) where
  tokens : List τ
  has_next_token : Bool

/-- One iteration of the generation loop: sample one token via the library
call, check the stop conditions, append the token. -/
def compStep (env : CompletionEnv τ) (s : CompState τ) : CompState τ :=
  if s.has_next_token then
    { tokens := s.tokens ++ [env.sample s.tokens],
      has_next_token := !env.isStop s.tokens (env.sample s.tokens) }
  else s

/-- The generation loop: while `has_next_token` holds, run one iteration;
`fuel` bounds the number of iterations (`n_predict`). -/
def genLoop (env : CompletionEnv τ) : Nat → CompState τ → CompState τ
  | 0, s => s
  | n + 1, s => if s.has_next_token then genLoop env n (compStep env s) else s

/-- A full completion: tokenize the prompt once, run the generation loop,
detokenize the accumulated tokens. -/
def completionRunSpec (env : CompletionEnv τ) (prompt : String) (fuel : Nat) :
    String :=
  env.detokenize
    (genLoop env fuel
      { tokens := env.tokenize prompt, has_next_token := true }).tokens

/-- Concrete completion environment used by the witness. -/
def envC : CompletionEnv Nat :=
  { tokenize := fun p => [p.length]
    sample := fun ts => ts.length
    isStop := fun _ t => decide (t ≥ 3)
    detokenize := fun ts => toString ts.length }

theorem STT.run_append (env : WhisperEnv α) (s : STT)
    (l : List (STTOp α)) (op : STTOp α) :
    STT.run env s (l ++ [op]) = STT.step env (STT.run env s l) op := by
  simp [STT.run, List.foldl_append]

theorem STT.run_cons (env : WhisperEnv α) (s : STT)
    (op : STTOp α) (l : List (STTOp α)) :
    STT.run env s (op :: l) = STT.run env (STT.step env s op) l := rfl

theorem STT.processAudio_state (env : WhisperEnv α) (s : STT)
    (samples : List α) : (STT.processAudio env s samples).2.1 = s := by
  unfold STT.processAudio
  cases s.ctx_ <;> simp only []
  split <;> [rfl; skip]
  split <;> rfl

theorem STT.initWhisper_fst (env : WhisperEnv α) (s : STT)
    (mp lang : String) (gpu : Bool) :
    (STT.initWhisper env s mp lang gpu).1
      = (s.ctx_.isNone && (env.initFromFile mp gpu).isSome) := by
  unfold STT.initWhisper
  cases h : s.ctx_ with
  | none => cases henv : env.initFromFile mp gpu <;> simp [h, henv]
  | some c => simp [h]

theorem STT.initWhisper_of_isSome (env : WhisperEnv α) (s : STT)
    (mp lang : String) (gpu : Bool) (h : s.ctx_.isSome = true) :
    STT.initWhisper env s mp lang gpu = (false, s) := by
  unfold STT.initWhisper
  simp [h]

theorem STT.step_preserves_init (env : WhisperEnv α) (s : STT) (op : STTOp α)
    (hs : s.ctx_.isSome = true) (hop : op ≠ STTOp.cleanup) :
    (STT.step env s op).ctx_.isSome = true := by
  cases op with
  | init mp lang gpu =>
      rw [STT.step, STT.initWhisper_of_isSome env s mp lang gpu hs]
      exact hs
  | process samples =>
      rw [STT.step, STT.processAudio_state]
      exact hs
  | cleanup => exact absurd rfl hop

theorem STT.run_preserves_init (env : WhisperEnv α) (s : STT)
    (post : List (STTOp α)) (hs : s.ctx_.isSome = true)
    (hpost : STTOp.cleanup ∉ post) :
    (STT.run env s post).ctx_.isSome = true := by
  induction post generalizing s with
  | nil => exact hs
  | cons op post ih =>
      rw [STT.run_cons]
      rw [List.mem_cons, not_or] at hpost
      exact ih (STT.step env s op)
        (STT.step_preserves_init env s op hs (fun h => hpost.1 h.symm)) hpost.2

/-- Splitting a list that ends in `op` around a distinguished element `x`:
either `x` is the final element, or the final segment also ends in `op`. -/
theorem concat_split {β : Type} {l pre post : List β} {op x : β}
    (h : l ++ [op] = pre ++ x :: post) :
    (post = [] ∧ pre = l ∧ x = op)
      ∨ (∃ post2, post = post2 ++ [op] ∧ l = pre ++ x :: post2) := by
  rcases List.eq_nil_or_concat post with hp | ⟨post2, b, hp⟩
  · subst hp
    have := List.append_inj' h (by simp)
    exact Or.inl ⟨rfl, this.1.symm, (by simpa using this.2.symm)⟩
  · subst hp
    have h2 : l ++ [op] = (pre ++ x :: post2) ++ [b] := by simpa using h
    have := List.append_inj' h2 (by simp)
    have hb : b = op := by simpa using this.2.symm
    exact Or.inr ⟨post2, by rw [hb]; simp, this.1⟩

theorem STT.isInit_run_iff (env : WhisperEnv α) (ops : List (STTOp α)) :
    STT.isInitialized (STT.run env STT.new ops) = true ↔
      ∃ pre mp lang gpu post,
        ops = pre ++ STTOp.init mp lang gpu :: post ∧
        (STT.initWhisper env (STT.run env STT.new pre) mp lang gpu).1 = true ∧
        STTOp.cleanup ∉ post := by
  induction ops using List.reverseRecOn with
  | nil =>
      simp only [STT.run, List.foldl_nil, STT.new, STT.isInitialized,
        Option.isSome_none]
      constructor
      · intro h; exact absurd h (by simp)
      · rintro ⟨pre, mp, lang, gpu, post, heq, -, -⟩
        exact absurd heq.symm (List.append_ne_nil_of_right_ne_nil pre (by simp))
  | append_singleton l op ih =>
      rw [STT.run_append]
      cases op with
      | cleanup =>
          simp only [STT.step, STT.cleanup, STT.isInitialized, Option.isSome_none]
          constructor
          · intro h; exact absurd h (by simp)
          · rintro ⟨pre, mp, lang, gpu, post, heq, hsucc, hnmem⟩
            rcases concat_split heq with ⟨-, -, hx⟩ | ⟨post2, hpost, -⟩
            · exact absurd hx (by simp)
            · exact absurd (by rw [hpost]; simp : STTOp.cleanup ∈ post) hnmem
      | process samples =>
          rw [STT.step, STT.processAudio_state]
          rw [ih]
          constructor
          · rintro ⟨pre, mp, lang, gpu, post, heq, hsucc, hnmem⟩
            exact ⟨pre, mp, lang, gpu, post ++ [STTOp.process samples],
              by rw [heq]; simp, hsucc, by simp [hnmem]⟩
          · rintro ⟨pre, mp, lang, gpu, post, heq, hsucc, hnmem⟩
            rcases concat_split heq with ⟨-, -, hx⟩ | ⟨post2, hpost, hl⟩
            · exact absurd hx (by simp)
            · refine ⟨pre, mp, lang, gpu, post2, hl, hsucc, ?_⟩
              intro hmem
              exact hnmem (by rw [hpost]; simp [hmem])
      | init mp lang gpu =>
          rw [STT.step]
          cases hc : (STT.run env STT.new l).ctx_ with
          | some c =>
              have hinit : STT.initWhisper env (STT.run env STT.new l) mp lang gpu
                  = (false, STT.run env STT.new l) :=
                STT.initWhisper_of_isSome env _ mp lang gpu (by simp [hc])
              rw [hinit]
              have hl : STT.isInitialized (STT.run env STT.new l) = true := by
                simp [STT.isInitialized, hc]
              refine ⟨fun _ => ?_, fun _ => hl⟩
              rcases ih.mp hl with ⟨pre, mp2, lang2, gpu2, post, heq, hsucc, hnmem⟩
              exact ⟨pre, mp2, lang2, gpu2, post ++ [STTOp.init mp lang gpu],
                by rw [heq]; simp, hsucc, by simp [hnmem]⟩
          | none =>
              cases henv : env.initFromFile mp gpu with
              | some c =>
                  constructor
                  · intro _
                    exact ⟨l, mp, lang, gpu, [], by simp,
                      by rw [STT.initWhisper_fst]; simp [hc, henv], by simp⟩
                  · intro _
                    simp [STT.isInitialized, STT.initWhisper, hc, henv]
              | none =>
                  have hfail : STT.isInitialized
                      (STT.initWhisper env (STT.run env STT.new l) mp lang gpu).2
                        = false := by
                    simp [STT.isInitialized, STT.initWhisper, hc, henv]
                  rw [hfail]
                  constructor
                  · intro h; exact absurd h (by simp)
                  · rintro ⟨pre, mp2, lang2, gpu2, post, heq, hsucc, hnmem⟩
                    rcases concat_split heq with ⟨hpost, hpre, hx⟩ |
                        ⟨post2, hpost, hl⟩
                    · subst hpre
                      cases hx
                      rw [STT.initWhisper_fst, hc, henv] at hsucc
                      simp at hsucc
                    · have : STT.isInitialized (STT.run env STT.new l) = true := by
                        apply ih.mpr
                        refine ⟨pre, mp2, lang2, gpu2, post2, hl, hsucc, ?_⟩
                        intro hmem
                        exact hnmem (by rw [hpost]; simp [hmem])
                      rw [STT.isInitialized, hc] at this
                      simp at this

/-- C4: for every initialized `cactus::STT` (held whisper context non-null),
`STT::getTranscription` returns the concatenation, in segment-index order
`0` through `whisper_full_n_segments - 1`, of the non-null segment texts
returned by `whisper_full_get_segment_text`; when the STT is not initialized
it returns the empty string. -/
theorem stt_getTranscription_concat (env : WhisperEnv α) (s : STT) :
    (∀ c, s.ctx_ = some c →
      STT.getTranscription env s
        = String.join
            ((List.range (env.nSegments c).toNat).filterMap (env.segmentText c)))
    ∧ (s.ctx_ = none → STT.getTranscription env s = "") := by
  have key : ∀ (f : Nat → Option String) (l : List Nat) (acc : String),
      l.foldl (fun a i => match f i with | none => a | some t => a ++ t) acc
        = acc ++ String.join (l.filterMap f) := by
    intro f l
    induction l with
    | nil => intro acc; simp [String.join_eq]
    | cons i l ih =>
        intro acc
        cases h : f i with
        | none => simp [List.foldl_cons, h, ih, List.filterMap_cons]
        | some t =>
            have hj : String.join (t :: l.filterMap f)
                = t ++ String.join (l.filterMap f) := by
              simp [String.join_eq]
              cases t
              rfl
            simp only [List.foldl_cons, h, ih, List.filterMap_cons, hj]
            rw [← String.append_assoc]
  constructor
  · intro c hc
    rw [STT.getTranscription, hc]
    simpa using key (env.segmentText c) (List.range (env.nSegments c).toNat) ""
  · intro hc
    rw [STT.getTranscription, hc]


theorem stt_getTranscription_concat_witness :
    STT.getTranscription envW { ctx_ := some 7, language_ := "en" } = "ab"
      ∧ STT.getTranscription envW { ctx_ := none, language_ := "en" } = "" := by
  constructor
  · rw [(stt_getTranscription_concat envW
      { ctx_ := some 7, language_ := "en" }).1 7 rfl]
    decide
  · exact (stt_getTranscription_concat envW
      { ctx_ := none, language_ := "en" }).2 rfl

/-- C5: `STT::initialize` returns true exactly when no whisper context was
already held and `whisper_init_from_file_with_params` returns non-null; on an
already-initialized STT it returns false and leaves the held context and the
configured language unchanged; and after any call sequence on a fresh
instance, `isInitialized()` is true iff some `initialize` call succeeded and
no `cleanup` ran after it. -/
theorem stt_initWhisper_lifecycle (env : WhisperEnv α) (s : STT)
    (mp lang : String) (gpu : Bool) (ops : List (STTOp α)) :
    ((STT.initWhisper env s mp lang gpu).1
        = (s.ctx_.isNone && (env.initFromFile mp gpu).isSome))
    ∧ (s.ctx_.isSome = true → STT.initWhisper env s mp lang gpu = (false, s))
    ∧ (STT.isInitialized (STT.run env STT.new ops) = true ↔
        ∃ pre mp2 lang2 gpu2 post,
          ops = pre ++ STTOp.init mp2 lang2 gpu2 :: post ∧
          (STT.initWhisper env (STT.run env STT.new pre) mp2 lang2 gpu2).1 = true ∧
          STTOp.cleanup ∉ post) :=
  ⟨STT.initWhisper_fst env s mp lang gpu,
   STT.initWhisper_of_isSome env s mp lang gpu,
   STT.isInit_run_iff env ops⟩

theorem stt_initWhisper_lifecycle_witness :
    STT.initWhisper envW { ctx_ := some 3, language_ := "fr" } "m" "en" true
        = (false, { ctx_ := some 3, language_ := "fr" })
      ∧ STT.isInitialized
          (STT.run envW STT.new [STTOp.init "m" "en" true]) = true := by
  refine ⟨(stt_initWhisper_lifecycle envW { ctx_ := some 3, language_ := "fr" }
    "m" "en" true []).2.1 (by decide), ?_⟩
  exact (stt_initWhisper_lifecycle envW STT.new "m" "en" true
    [STTOp.init "m" "en" true]).2.2.mpr
    ⟨[], "m", "en", true, [], rfl, by decide, by simp⟩

/-- C8: `STT::processAudio` returns false without invoking `whisper_full`
whenever the STT is uninitialized or the samples vector is empty; for a
non-empty vector on an initialized STT it returns true exactly when
`whisper_full` returns 0; and in every case it leaves the held whisper
context pointer and configured language unchanged. -/
theorem stt_processAudio_guard (env : WhisperEnv α) (s : STT)
    (samples : List α) :
    ((s.ctx_ = none ∨ samples = []) →
        STT.processAudio env s samples = (false, s, []))
    ∧ (∀ c, s.ctx_ = some c → samples ≠ [] →
        ((STT.processAudio env s samples).1 = true ↔
          env.fullRet c s.language_ samples = 0))
    ∧ (STT.processAudio env s samples).2.1 = s := by
  refine ⟨?_, ?_, STT.processAudio_state env s samples⟩
  · rintro (hc | hsamp)
    · rw [STT.processAudio, hc]
    · subst hsamp
      rw [STT.processAudio]
      cases s.ctx_ <;> simp
  · intro c hc hsamp
    rw [STT.processAudio, hc]
    simp only [List.isEmpty_eq_true, hsamp, if_false]
    by_cases hret : env.fullRet c s.language_ samples = 0
    · simp [hret]
    · simp [hret]

theorem stt_processAudio_guard_witness :
    STT.processAudio envW { ctx_ := none, language_ := "en" } [1]
        = (false, { ctx_ := none, language_ := "en" }, [])
      ∧ STT.processAudio envW { ctx_ := some 7, language_ := "en" } []
        = (false, { ctx_ := some 7, language_ := "en" }, [])
      ∧ ((STT.processAudio envW { ctx_ := some 7, language_ := "en" }
            [1, 2]).1 = true ↔ envW.fullRet 7 "en" [1, 2] = 0) := by
  refine ⟨(stt_processAudio_guard envW { ctx_ := none, language_ := "en" }
      [1]).1 (Or.inl rfl),
    (stt_processAudio_guard envW { ctx_ := some 7, language_ := "en" }
      []).1 (Or.inr rfl),
    (stt_processAudio_guard envW { ctx_ := some 7, language_ := "en" }
      [1, 2]).2.1 7 rfl (by decide)⟩

/-- C3: for the iOS Cactus React-Native module, `loadSession`, `saveSession`
and `completion` never forward to the underlying `cactus_context` while it is
predicting: for every contextId, an unregistered id rejects the promise with
"Context not found", and a registered context with `isPredicting` set rejects
with "Context is busy"; in both cases no session-persistence or completion
work is performed. -/
theorem ios_session_completion_guard (s : ModState) (cid : ℚ)
    (fp : String) (size : Int) :
    (lookupCtx s cid = none →
        loadSession s cid fp
            = (Outcome.rejected "llama_error" "Context not found", [])
          ∧ saveSession s cid fp size
            = (Outcome.rejected "llama_error" "Context not found", [])
          ∧ completion s cid
            = (Outcome.rejected "llama_error" "Context not found", []))
    ∧ (∀ c, lookupCtx s cid = some c → c.isPredicting = true →
        loadSession s cid fp
            = (Outcome.rejected "llama_error" "Context is busy", [])
          ∧ saveSession s cid fp size
            = (Outcome.rejected "llama_error" "Context is busy", [])
          ∧ completion s cid
            = (Outcome.rejected "llama_error" "Context is busy", [])) := by
  constructor
  · intro h
    refine ⟨?_, ?_, ?_⟩ <;> simp [loadSession, saveSession, completion, h]
  · intro c hc hp
    refine ⟨?_, ?_, ?_⟩ <;> simp [loadSession, saveSession, completion, hc, hp]


theorem ios_session_completion_guard_witness :
    loadSession sBusy 1 "f"
        = (Outcome.rejected "llama_error" "Context not found", [])
      ∧ completion sBusy 2
        = (Outcome.rejected "llama_error" "Context is busy", []) := by
  have h1 := (ios_session_completion_guard sBusy 1 "f" 0).1 (by
    simp [lookupCtx, sBusy, alookup])
  have h2 := (ios_session_completion_guard sBusy 2 "f" 0).2
    { isModelLoaded := true, isPredicting := true } (by
      simp [lookupCtx, sBusy, alookup]) rfl
  exact ⟨h1.1, h2.2.2⟩


theorem lookup_dictOf (s : ModState) (cid : ℚ) :
    lookupCtx s cid = alookup (dictOf s) cid := by
  cases h : s.llamaContexts <;> simp [lookupCtx, dictOf, h, alookup]

theorem alookup_append_self (m : List (ℚ × CtxObj)) (cid : ℚ) (v : CtxObj)
    (h : alookup m cid = none) : alookup (m ++ [(cid, v)]) cid = some v := by
  induction m with
  | nil => simp [alookup]
  | cons e rest ih =>
      obtain ⟨k, w⟩ := e
      by_cases hk : k = cid
      · simp [alookup, hk] at h
      · simp only [List.cons_append, alookup, if_neg hk] at h ⊢
        exact ih h

theorem alookup_none_not_mem (m : List (ℚ × CtxObj)) (cid : ℚ)
    (h : alookup m cid = none) : cid ∉ m.map Prod.fst := by
  induction m with
  | nil => simp
  | cons e rest ih =>
      obtain ⟨k, w⟩ := e
      by_cases hk : k = cid
      · simp [alookup, hk] at h
      · simp only [alookup, if_neg hk] at h
        intro hmem
        rcases List.mem_cons.mp hmem with hc | hc
        · exact hk hc.symm
        · exact ih h hc

theorem initContext_eq_exists (s : ModState) (cid : ℚ) (created : CtxObj)
    (h : (lookupCtx s cid).isSome = true) :
    initContext s cid created
      = (Outcome.rejected "llama_error" "Context already exists", s) := by
  rw [initContext, if_pos h]

theorem initContext_eq_limit (s : ModState) (cid : ℚ) (created : CtxObj)
    (h : lookupCtx s cid = none)
    (hc : s.llamaContextLimit > -1 ∧ (ctxCount s : ℚ) ≥ s.llamaContextLimit) :
    initContext s cid created
      = (Outcome.rejected "llama_error" "Context limit reached",
         { s with llamaContexts := some (dictOf s) }) := by
  rw [initContext, if_neg (by rw [h]; simp), if_pos hc]

theorem initContext_eq_notLoaded (s : ModState) (cid : ℚ) (created : CtxObj)
    (h : lookupCtx s cid = none)
    (hnc : ¬ (s.llamaContextLimit > -1 ∧ (ctxCount s : ℚ) ≥ s.llamaContextLimit))
    (hml : created.isModelLoaded = false) :
    initContext s cid created
      = (Outcome.rejected "llama_cpp_error" "Failed to load the model",
         { s with llamaContexts := some (dictOf s) }) := by
  rw [initContext, if_neg (by rw [h]; simp), if_neg hnc, if_pos hml]

theorem initContext_eq_ok (s : ModState) (cid : ℚ) (created : CtxObj)
    (h : lookupCtx s cid = none)
    (hnc : ¬ (s.llamaContextLimit > -1 ∧ (ctxCount s : ℚ) ≥ s.llamaContextLimit))
    (hml : created.isModelLoaded = true) :
    initContext s cid created
      = (Outcome.resolved,
         { s with llamaContexts := some (dictOf s ++ [(cid, created)]) }) := by
  rw [initContext, if_neg (by rw [h]; simp), if_neg hnc,
    if_neg (by rw [hml]; simp)]

/-- C7 (amended): `initContext` rejects with "Context already exists" when a
context is registered under the id; otherwise rejects with "Context limit
reached" when `llamaContextLimit` is greater than -1 and the number of
registered contexts is at least the limit; otherwise rejects with "Failed to
load the model" when the created context reports the model not loaded; in
each rejection case no context is registered; otherwise exactly one context
is registered under the id. -/
theorem ios_initContext_cases (s : ModState) (cid : ℚ) (created : CtxObj) :
    ((lookupCtx s cid).isSome = true →
        initContext s cid created
          = (Outcome.rejected "llama_error" "Context already exists", s))
    ∧ (lookupCtx s cid = none →
        s.llamaContextLimit > -1 → (ctxCount s : ℚ) ≥ s.llamaContextLimit →
          (initContext s cid created).1
              = Outcome.rejected "llama_error" "Context limit reached"
            ∧ dictOf (initContext s cid created).2 = dictOf s)
    ∧ (lookupCtx s cid = none →
        ¬ (s.llamaContextLimit > -1 ∧ (ctxCount s : ℚ) ≥ s.llamaContextLimit) →
        created.isModelLoaded = false →
          (initContext s cid created).1
              = Outcome.rejected "llama_cpp_error" "Failed to load the model"
            ∧ dictOf (initContext s cid created).2 = dictOf s)
    ∧ (lookupCtx s cid = none →
        ¬ (s.llamaContextLimit > -1 ∧ (ctxCount s : ℚ) ≥ s.llamaContextLimit) →
        created.isModelLoaded = true →
          (initContext s cid created).1 = Outcome.resolved
            ∧ dictOf (initContext s cid created).2 = dictOf s ++ [(cid, created)]
            ∧ lookupCtx (initContext s cid created).2 cid = some created) := by
  refine ⟨?_, ?_, ?_, ?_⟩
  · exact initContext_eq_exists s cid created
  · intro h h1 h2
    rw [initContext_eq_limit s cid created h ⟨h1, h2⟩]
    exact ⟨rfl, rfl⟩
  · intro h hnc hml
    rw [initContext_eq_notLoaded s cid created h hnc hml]
    exact ⟨rfl, rfl⟩
  · intro h hnc hml
    rw [initContext_eq_ok s cid created h hnc hml]
    refine ⟨rfl, rfl, ?_⟩
    show alookup (dictOf s ++ [(cid, created)]) cid = some created
    exact alookup_append_self (dictOf s) cid created
      (by rw [← lookup_dictOf]; exact h)

/-- C7, counterexample to the claim as stated: with `llamaContextLimit` set
to -0.5 (a negative value the bridged double accepts), an `initContext` call
on a fresh id with a successfully loaded model is rejected with "Context
limit reached" and registers nothing, although the claim requires a limit
rejection only for a non-negative limit and otherwise a registration. -/
theorem ios_initContext_neg_limit_cex :
    sNegLimit.llamaContextLimit < 0
      ∧ lookupCtx sNegLimit 5 = none
      ∧ (initContext sNegLimit 5 { isModelLoaded := true, isPredicting := false }).1
          = Outcome.rejected "llama_error" "Context limit reached"
      ∧ ctxCount (initContext sNegLimit 5
          { isModelLoaded := true, isPredicting := false }).2 = 0 := by
  have hcond : sNegLimit.llamaContextLimit > -1
      ∧ (ctxCount sNegLimit : ℚ) ≥ sNegLimit.llamaContextLimit := by
    constructor
    · show (-1 / 2 : ℚ) > -1
      norm_num
    · show ((0 : Nat) : ℚ) ≥ -1 / 2
      norm_num
  have heq := initContext_eq_limit sNegLimit 5
    { isModelLoaded := true, isPredicting := false } rfl hcond
  refine ⟨?_, rfl, ?_, ?_⟩
  · show (-1 / 2 : ℚ) < 0
    norm_num
  · rw [heq]
  · rw [heq]
    rfl

theorem ios_initContext_cases_witness :
    initContext sBusy 2 { isModelLoaded := true, isPredicting := false }
        = (Outcome.rejected "llama_error" "Context already exists", sBusy)
      ∧ (initContext { llamaContexts := some [], llamaContextLimit := 0 } 1
          { isModelLoaded := true, isPredicting := false }).1
          = Outcome.rejected "llama_error" "Context limit reached"
      ∧ (initContext ModState.init0 1
          { isModelLoaded := false, isPredicting := false }).1
          = Outcome.rejected "llama_cpp_error" "Failed to load the model"
      ∧ lookupCtx (initContext ModState.init0 1
          { isModelLoaded := true, isPredicting := false }).2 1
          = some { isModelLoaded := true, isPredicting := false } := by
  have hn1 : ¬ (ModState.init0.llamaContextLimit > -1
      ∧ (ctxCount ModState.init0 : ℚ) ≥ ModState.init0.llamaContextLimit) := by
    rintro ⟨hc, -⟩
    exact absurd hc (lt_irrefl (-1 : ℚ))
  refine ⟨?_, ?_, ?_, ?_⟩
  · exact (ios_initContext_cases sBusy 2
      { isModelLoaded := true, isPredicting := false }).1 (by
        simp [lookupCtx, sBusy, alookup])
  · exact ((ios_initContext_cases
      { llamaContexts := some [], llamaContextLimit := 0 } 1
      { isModelLoaded := true, isPredicting := false }).2.1 rfl
        (by norm_num) (by norm_num)).1
  · exact ((ios_initContext_cases ModState.init0 1
      { isModelLoaded := false, isPredicting := false }).2.2.1 rfl hn1 rfl).1
  · exact ((ios_initContext_cases ModState.init0 1
      { isModelLoaded := true, isPredicting := false }).2.2.2 rfl hn1 rfl).2.2

theorem releaseContext_lookup_none (s : ModState) (cid : ℚ)
    (h : lookupCtx s cid = none) : (releaseContext s cid).2 = s := by
  simp [releaseContext, h]

theorem releaseContext_lookup_some (s : ModState) (cid : ℚ) (c : CtxObj)
    (h : lookupCtx s cid = some c) :
    (releaseContext s cid).2
      = { s with
            llamaContexts :=
              some ((dictOf s).filter (fun e => decide (e.1 ≠ cid))) } := by
  simp [releaseContext, h]

theorem modStep_nodup (s : ModState) (op : ModOp)
    (h : (keysOf s).Nodup) : (keysOf (modStep s op)).Nodup := by
  cases op with
  | initC cid created =>
      show (keysOf (initContext s cid created).2).Nodup
      by_cases hx : (lookupCtx s cid).isSome = true
      · rw [initContext_eq_exists s cid created hx]
        exact h
      · have hnone : lookupCtx s cid = none := by
          cases hy : lookupCtx s cid with
          | none => rfl
          | some c => rw [hy] at hx; simp at hx
        by_cases hc : s.llamaContextLimit > -1
            ∧ (ctxCount s : ℚ) ≥ s.llamaContextLimit
        · rw [initContext_eq_limit s cid created hnone hc]
          exact h
        · by_cases hml : created.isModelLoaded = false
          · rw [initContext_eq_notLoaded s cid created hnone hc hml]
            exact h
          · have hml2 : created.isModelLoaded = true := by
              cases hb : created.isModelLoaded
              · exact absurd hb hml
              · rfl
            rw [initContext_eq_ok s cid created hnone hc hml2]
            have hnone2 : alookup (dictOf s) cid = none := by
              rw [← lookup_dictOf]
              exact hnone
            show ((dictOf s ++ [(cid, created)]).map Prod.fst).Nodup
            rw [List.map_append, List.nodup_append]
            refine ⟨h, by simp, ?_⟩
            intro a ha hmem
            simp only [List.map_cons, List.map_nil, List.mem_singleton] at hmem
            subst hmem
            exact alookup_none_not_mem (dictOf s) a hnone2 ha
  | releaseC cid =>
      show (keysOf (releaseContext s cid).2).Nodup
      cases hx : lookupCtx s cid with
      | none =>
          rw [releaseContext_lookup_none s cid hx]
          exact h
      | some c =>
          rw [releaseContext_lookup_some s cid c hx]
          show (((dictOf s).filter (fun e => decide (e.1 ≠ cid))).map
            Prod.fst).Nodup
          exact ((List.filter_sublist (dictOf s)).map Prod.fst).nodup h
  | setLimit l => exact h
  | releaseAll => exact List.nodup_nil

theorem modRun_nodup (ops : List ModOp) : (keysOf (modRun ops)).Nodup := by
  induction ops using List.reverseRecOn with
  | nil => exact List.nodup_nil
  | append_singleton l op ih =>
      have hstep : modRun (l ++ [op]) = modStep (modRun l) op := by
        simp [modRun, List.foldl_append]
      rw [hstep]
      exact modStep_nodup (modRun l) op ih

theorem RN_STT_init_true (s : SttBridgeState) (hlive : s.live = s.g.toList) :
    ((RN_STT_init s true).2).live = [s.nextPtr]
      ∧ ((RN_STT_init s true).2).g = some s.nextPtr
      ∧ ((RN_STT_init s true).2).nextPtr = s.nextPtr + 1 := by
  cases hg : s.g with
  | none =>
      rw [hg] at hlive
      simp [RN_STT_init, cactusSttFree, cactusSttInit, hg, hlive]
  | some p =>
      rw [hg] at hlive
      simp [RN_STT_init, cactusSttFree, cactusSttInit, hg, hlive]

theorem RN_STT_init_false (s : SttBridgeState) (hlive : s.live = s.g.toList) :
    ((RN_STT_init s false).2).live = []
      ∧ ((RN_STT_init s false).2).g = none := by
  cases hg : s.g with
  | none =>
      rw [hg] at hlive
      simp [RN_STT_init, cactusSttFree, cactusSttInit, hg, hlive]
  | some p =>
      rw [hg] at hlive
      simp [RN_STT_init, cactusSttFree, cactusSttInit, hg, hlive]

theorem bridgeStep_inv (s : SttBridgeState) (op : BridgeOp)
    (h : BridgeInv s) : BridgeInv (bridgeStep s op) := by
  obtain ⟨hlive, hlt⟩ := h
  cases op with
  | init ok =>
      show BridgeInv ((RN_STT_init s ok).2)
      cases ok with
      | true =>
          obtain ⟨h1, h2, h3⟩ := RN_STT_init_true s hlive
          refine ⟨by rw [h1, h2]; rfl, ?_⟩
          intro p hp
          rw [h2] at hp
          injection hp with hp
          rw [h3, ← hp]
          exact Nat.lt_succ_self _
      | false =>
          obtain ⟨h1, h2⟩ := RN_STT_init_false s hlive
          refine ⟨by rw [h1, h2]; rfl, ?_⟩
          intro p hp
          rw [h2] at hp
          exact Option.noConfusion hp
  | free p =>
      show BridgeInv (RN_STT_free s p)
      cases p with
      | none => exact ⟨hlive, hlt⟩
      | some q =>
          rw [RN_STT_free]
          by_cases hgq : s.g = some q
          · rw [if_pos hgq]
            refine ⟨?_, ?_⟩
            · show s.live.erase q = (none : Option Nat).toList
              rw [hlive, hgq]
              simp
            · intro p2 hp
              exact Option.noConfusion hp
          · rw [if_neg hgq]
            exact ⟨hlive, hlt⟩

theorem bridgeRun_inv (ops : List BridgeOp) : BridgeInv (bridgeRun ops) := by
  induction ops using List.reverseRecOn with
  | nil =>
      refine ⟨rfl, ?_⟩
      intro p hp
      exact Option.noConfusion hp
  | append_singleton l op ih =>
      have hstep : bridgeRun (l ++ [op]) = bridgeStep (bridgeRun l) op := by
        simp [bridgeRun, List.foldl_append]
      rw [hstep]
      exact bridgeStep_inv (bridgeRun l) op ih

/-- C2 (amended): for the iOS React-Native STT bridge, after any sequence of
`RN_STT_init` and `RN_STT_free` calls at most one native STT context is
live; `RN_STT_init` frees the previously live context, which is never live
afterwards; `RN_STT_free` changes nothing when its argument is null or
differs from the global handle; the module's LLM contexts, by contrast, form
a dictionary keyed by contextId that can hold several live contexts at once,
with at most one registered context per contextId. -/
theorem rn_single_handle_inv (ops : List BridgeOp) (s : SttBridgeState)
    (p q : Nat) (ok : Bool) (mops : List ModOp) (cid : ℚ) :
    ((bridgeRun ops).live.length ≤ 1)
    ∧ (BridgeInv s → s.g = some p → p ∉ ((RN_STT_init s ok).2).live)
    ∧ (RN_STT_free s none = s)
    ∧ (s.g ≠ some q → RN_STT_free s (some q) = s)
    ∧ List.count cid (keysOf (modRun mops)) ≤ 1 := by
  refine ⟨?_, ?_, rfl, ?_, ?_⟩
  · obtain ⟨hlive, -⟩ := bridgeRun_inv ops
    rw [hlive]
    cases (bridgeRun ops).g <;> simp
  · rintro ⟨hlive, hlt⟩ hg
    have hp : p < s.nextPtr := hlt p hg
    cases ok with
    | true =>
        obtain ⟨h1, -, -⟩ := RN_STT_init_true s hlive
        rw [h1]
        intro hmem
        rw [List.mem_singleton] at hmem
        exact absurd hmem (Nat.ne_of_lt hp)
    | false =>
        obtain ⟨h1, -⟩ := RN_STT_init_false s hlive
        rw [h1]
        exact List.not_mem_nil p
  · intro hne
    rw [RN_STT_free, if_neg hne]
  · exact List.nodup_iff_count_le_one.mp (modRun_nodup mops) cid

theorem rn_single_handle_inv_witness :
    (1 : Nat) ∉ ((RN_STT_init { nextPtr := 2, live := [1], g := some 1 }
        true).2).live
      ∧ RN_STT_free { nextPtr := 2, live := [1], g := some 1 } (some 5)
        = { nextPtr := 2, live := [1], g := some 1 } := by
  have h := rn_single_handle_inv [] { nextPtr := 2, live := [1], g := some 1 }
    1 5 true [] 1
  refine ⟨h.2.1 ⟨rfl, ?_⟩ rfl, h.2.2.2.1 (by simp)⟩
  intro p hp
  injection hp with hp
  subst hp
  show (1 : Nat) < 2
  omega

theorem ctxCount_initContext_ok (s : ModState) (cid : ℚ) (created : CtxObj)
    (h : lookupCtx s cid = none)
    (hnc : ¬ (s.llamaContextLimit > -1 ∧ (ctxCount s : ℚ) ≥ s.llamaContextLimit))
    (hml : created.isModelLoaded = true) :
    ctxCount (initContext s cid created).2 = ctxCount s + 1 := by
  rw [initContext_eq_ok s cid created h hnc hml]
  show (dictOf s ++ [(cid, created)]).length = (dictOf s).length + 1
  simp

/-- C2, counterexample to the claim as stated: two `initContext` calls with
distinct ids leave two LLM contexts registered at once, so the module's LLM
contexts do not satisfy the single-live-handle property asserted for them. -/
theorem rn_llm_two_contexts_cex :
    ctxCount (modRun
      [ModOp.initC 1 { isModelLoaded := true, isPredicting := false },
       ModOp.initC 2 { isModelLoaded := true, isPredicting := false }]) = 2 := by
  have hn1 : ¬ (ModState.init0.llamaContextLimit > -1
      ∧ (ctxCount ModState.init0 : ℚ) ≥ ModState.init0.llamaContextLimit) := by
    rintro ⟨hc, -⟩
    exact absurd hc (lt_irrefl (-1 : ℚ))
  have e1 := initContext_eq_ok ModState.init0 1
    { isModelLoaded := true, isPredicting := false } rfl hn1 rfl
  have h12 : ¬ ((1 : ℚ) = 2) := by norm_num
  have hl2 : lookupCtx (initContext ModState.init0 1
      { isModelLoaded := true, isPredicting := false }).2 2 = none := by
    rw [e1]
    show alookup
      [((1 : ℚ), ({ isModelLoaded := true, isPredicting := false } : CtxObj))]
      2 = none
    simp only [alookup, if_neg h12]
  have hn2 : ¬ ((initContext ModState.init0 1
      { isModelLoaded := true, isPredicting := false }).2.llamaContextLimit > -1
      ∧ (ctxCount (initContext ModState.init0 1
          { isModelLoaded := true, isPredicting := false }).2 : ℚ)
        ≥ (initContext ModState.init0 1
          { isModelLoaded := true, isPredicting := false }).2.llamaContextLimit) := by
    rintro ⟨hc, -⟩
    rw [e1] at hc
    exact absurd hc (lt_irrefl (-1 : ℚ))
  show ctxCount (initContext (initContext ModState.init0 1
    { isModelLoaded := true, isPredicting := false }).2 2
    { isModelLoaded := true, isPredicting := false }).2 = 2
  rw [ctxCount_initContext_ok _ 2
    { isModelLoaded := true, isPredicting := false } hl2 hn2 rfl]
  rw [ctxCount_initContext_ok ModState.init0 1
    { isModelLoaded := true, isPredicting := false } rfl hn1 rfl]
  rfl

/-- C6: the Dart `CactusSTTService.processAudioChunk` returns false without
calling the native library when the service is uninitialized or the sample
list is empty; otherwise it returns exactly the boolean that
`cactus_stt_process_audio` returns for the held context, the marshalled
samples, and their count. -/
theorem dart_processAudioChunk_guard (env : DartFfiEnv α β)
    (s : CactusSTTService) (audioSamples : List α) :
    (s.sttContext = none →
        CactusSTTService.processAudioChunk env s audioSamples = (false, []))
    ∧ (audioSamples = [] →
        CactusSTTService.processAudioChunk env s audioSamples = (false, []))
    ∧ (∀ c, s.sttContext = some c → audioSamples ≠ [] →
        CactusSTTService.processAudioChunk env s audioSamples
          = (env.processAudio c (audioSamples.map env.marshal)
              audioSamples.length,
             [FfiCall.processAudio c (audioSamples.map env.marshal)
                audioSamples.length])) := by
  refine ⟨?_, ?_, ?_⟩
  · intro h
    rw [CactusSTTService.processAudioChunk, h]
  · intro h
    subst h
    rw [CactusSTTService.processAudioChunk]
    cases s.sttContext <;> simp
  · intro c hc hne
    rw [CactusSTTService.processAudioChunk, hc]
    simp only [List.isEmpty_eq_true, hne, if_false]

/-- Concrete Dart FFI environment used by the witness. -/
theorem dart_processAudioChunk_guard_witness :
    CactusSTTService.processAudioChunk
        (DartFfiEnv.mk Int.ofNat (fun c _ n => decide (c + n = 9)))
        { sttContext := none } [1, 2] = (false, [])
      ∧ CactusSTTService.processAudioChunk
        (DartFfiEnv.mk Int.ofNat (fun c _ n => decide (c + n = 9)))
        { sttContext := some 7 } ([] : List Nat) = (false, [])
      ∧ CactusSTTService.processAudioChunk
        (DartFfiEnv.mk Int.ofNat (fun c _ n => decide (c + n = 9)))
        { sttContext := some 7 } [1, 2]
        = (true, [FfiCall.processAudio 7 [(1 : Int), 2] 2]) := by
  refine ⟨?_, ?_, ?_⟩
  · exact (dart_processAudioChunk_guard
      (DartFfiEnv.mk Int.ofNat (fun c _ n => decide (c + n = 9)))
      { sttContext := none } [1, 2]).1 rfl
  · exact (dart_processAudioChunk_guard
      (DartFfiEnv.mk Int.ofNat (fun c _ n => decide (c + n = 9)))
      { sttContext := some 7 } ([] : List Nat)).2.1 rfl
  · rw [(dart_processAudioChunk_guard
      (DartFfiEnv.mk Int.ofNat (fun c _ n => decide (c + n = 9)))
      { sttContext := some 7 } [1, 2]).2.2 7 rfl (by decide)]
    decide

theorem vtt_release_untruthy (s : VoiceToText) :
    pathTruthy ((VoiceToText.releaseSTT s).1).modelPath = false := by
  rw [VoiceToText.releaseSTT]
  by_cases h : pathTruthy s.modelPath
  · rw [if_pos h]
    rfl
  · rw [if_neg h]
    exact Bool.not_eq_true _ |>.mp h

/-- C9 (amended): after `releaseSTT()` resolves on an instance whose stored
model path is truthy, the stored model path and current transcription are
both cleared, so `getTranscription()` returns null; `releaseSTT()` on an
instance whose model path is falsy (null or empty) performs no native call
and changes nothing; after any `releaseSTT()`, every subsequent
`processAudio()` or `setUserVocabulary()` call, and every subsequent
`start()` call made while no recording is in progress, throws
"STT model not initialized. Call initSTT(modelPath) first." until `initSTT`
stores a new model path. -/
theorem vtt_releaseSTT_guard (s : VoiceToText) (env : VttEnv)
    (path vocab newPath : String) :
    (pathTruthy s.modelPath = true →
        (VoiceToText.releaseSTT s).1.modelPath = none
          ∧ (VoiceToText.releaseSTT s).1.currentTranscription = none
          ∧ VoiceToText.getTranscription (VoiceToText.releaseSTT s).1 = none)
    ∧ (pathTruthy s.modelPath = false → VoiceToText.releaseSTT s = (s, []))
    ∧ ((VoiceToText.releaseSTT s).1.isRecording = false →
        (VoiceToText.start env (VoiceToText.releaseSTT s).1).1
          = VttResult.thrown
              "STT model not initialized. Call initSTT(modelPath) first.")
    ∧ ((VoiceToText.processAudio env (VoiceToText.releaseSTT s).1 path).1
          = VttResult.thrown
              "STT model not initialized. Call initSTT(modelPath) first.")
    ∧ ((VoiceToText.setUserVocabulary (VoiceToText.releaseSTT s).1 vocab).1
          = VttResult.thrown
              "STT model not initialized. Call initSTT(modelPath) first.")
    ∧ ((VoiceToText.initSTT (VoiceToText.releaseSTT s).1 newPath).1.modelPath
          = some newPath) := by
  have hrel := vtt_release_untruthy s
  refine ⟨?_, ?_, ?_, ?_, ?_, rfl⟩
  · intro h
    rw [VoiceToText.releaseSTT, if_pos h]
    exact ⟨rfl, rfl, rfl⟩
  · intro h
    rw [VoiceToText.releaseSTT, if_neg (by rw [h]; exact Bool.false_ne_true)]
  · intro hnr
    rw [VoiceToText.start, if_neg (by rw [hnr]; exact Bool.false_ne_true),
      if_pos hrel]
  · rw [VoiceToText.processAudio, if_pos hrel]
  · rw [VoiceToText.setUserVocabulary, if_pos hrel]

theorem vtt_releaseSTT_guard_witness :
    (VoiceToText.releaseSTT
        { modelPath := some "m", isRecording := false,
          currentTranscription := some "t" }).1.currentTranscription = none
      ∧ VoiceToText.releaseSTT
          { modelPath := none, isRecording := false,
            currentTranscription := none }
        = ({ modelPath := none, isRecording := false,
             currentTranscription := none }, [])
      ∧ (VoiceToText.start envV (VoiceToText.releaseSTT
          { modelPath := some "m", isRecording := false,
            currentTranscription := some "t" }).1).1
        = VttResult.thrown
            "STT model not initialized. Call initSTT(modelPath) first." := by
  refine ⟨?_, ?_, ?_⟩
  · exact ((vtt_releaseSTT_guard
      { modelPath := some "m", isRecording := false,
        currentTranscription := some "t" } envV "p" "v" "n").1 (by decide)).2.1
  · exact (vtt_releaseSTT_guard
      { modelPath := none, isRecording := false,
        currentTranscription := none } envV "p" "v" "n").2.1 rfl
  · exact (vtt_releaseSTT_guard
      { modelPath := some "m", isRecording := false,
        currentTranscription := some "t" } envV "p" "v" "n").2.2.1 rfl

/-- C9, counterexample to the claim as stated: (a) releasing the model while
a recording is in progress leaves the recording flag set, so the next
`start()` resolves with "Already recording" instead of throwing; (b) on an
instance whose stored model path is the empty string (falsy but not null),
`releaseSTT()` resolves without clearing the stored transcription, so
`getTranscription()` does not return null afterwards. -/
theorem vtt_release_cex :
    (VoiceToText.start envV vttRecReleased).1
        = VttResult.ok "Already recording"
      ∧ vttRecReleased.modelPath = none
      ∧ VoiceToText.releaseSTT vttEmptyPath = (vttEmptyPath, [])
      ∧ vttEmptyPath.modelPath = some ""
      ∧ VoiceToText.getTranscription
          (VoiceToText.releaseSTT vttEmptyPath).1 = some "text" := by
  refine ⟨?_, ?_, ?_, ?_, ?_⟩ <;> decide

theorem genLoop_extends (env : CompletionEnv τ) (fuel : Nat) (s : CompState τ) :
    ∃ k, k ≤ fuel
      ∧ (genLoop env fuel s).tokens.take s.tokens.length = s.tokens
      ∧ (genLoop env fuel s).tokens.length = s.tokens.length + k := by
  induction fuel generalizing s with
  | zero => exact ⟨0, Nat.le_refl 0, by simp [genLoop], by simp [genLoop]⟩
  | succ n ih =>
      rw [genLoop]
      by_cases h : s.has_next_token = true
      · rw [if_pos h]
        obtain ⟨k, hk, htake, hlen⟩ := ih (compStep env s)
        have hstep : (compStep env s).tokens
            = s.tokens ++ [env.sample s.tokens] := by
          rw [compStep, if_pos h]
        have hmin : s.tokens.length ≤ (compStep env s).tokens.length := by
          rw [hstep]
          simp
        refine ⟨k + 1, by omega, ?_, ?_⟩
        · calc (genLoop env n (compStep env s)).tokens.take s.tokens.length
              = ((genLoop env n (compStep env s)).tokens.take
                  (compStep env s).tokens.length).take s.tokens.length := by
                rw [List.take_take, Nat.min_eq_left hmin]
            _ = (compStep env s).tokens.take s.tokens.length := by rw [htake]
            _ = s.tokens := by rw [hstep, List.take_left]
        · rw [hlen, hstep]
          simp only [List.length_append, List.length_singleton]
          omega
      · rw [if_neg h]
        exact ⟨0, by omega, by simp, by simp⟩

/-- C1: a full completion is the sequential composition tokenize →
generation loop → detokenize: the prompt is tokenized once; while
`has_next_token` holds each loop iteration samples exactly one token via the
library call, checks the stop conditions, and appends the token; the loop
does nothing once `has_next_token` is false; and the final text is the
detokenization of the accumulated tokens, which extend the prompt tokens by
exactly the generated ones (at most `fuel` of them, one per iteration). The
model is a sequential function, so no part of the loop runs concurrently. -/
theorem completion_sequential (env : CompletionEnv τ) (prompt : String)
    (fuel : Nat) (s : CompState τ) :
    (completionRunSpec env prompt fuel
        = env.detokenize
            (genLoop env fuel
              { tokens := env.tokenize prompt, has_next_token := true }).tokens)
    ∧ (s.has_next_token = true →
        (compStep env s).tokens = s.tokens ++ [env.sample s.tokens]
          ∧ (compStep env s).has_next_token
              = !env.isStop s.tokens (env.sample s.tokens))
    ∧ (s.has_next_token = false → genLoop env fuel s = s)
    ∧ (∃ k, k ≤ fuel
        ∧ (genLoop env fuel
            { tokens := env.tokenize prompt,
              has_next_token := true }).tokens.take
              (env.tokenize prompt).length
          = env.tokenize prompt
        ∧ (genLoop env fuel
            { tokens := env.tokenize prompt,
              has_next_token := true }).tokens.length
          = (env.tokenize prompt).length + k) := by
  refine ⟨rfl, ?_, ?_, ?_⟩
  · intro h
    rw [compStep, if_pos h]
    exact ⟨rfl, rfl⟩
  · intro h
    cases fuel with
    | zero => rfl
    | succ n =>
        rw [genLoop, if_neg (by rw [h]; exact Bool.false_ne_true)]
  · exact genLoop_extends env fuel
      { tokens := env.tokenize prompt, has_next_token := true }

theorem completion_sequential_witness :
    ((compStep envC { tokens := [5], has_next_token := true }).tokens
        = [5, 1]
      ∧ genLoop envC 4 { tokens := [5, 1], has_next_token := false }
        = { tokens := [5, 1], has_next_token := false }) := by
  refine ⟨?_, ?_⟩
  · rw [(completion_sequential envC "hello" 4
      { tokens := [5], has_next_token := true }).2.1 rfl |>.1]
    decide
  · exact (completion_sequential envC "hello" 4
      { tokens := [5, 1], has_next_token := false }).2.2.1 rfl

end CactusProof
